import Mathlib

/-!
Shallow embedding of `torchdata/cachers.py`: the `Cacher` backends
`Memory`, `Pickle` and `Tensor`, modelled over an explicit filesystem
state, together with proofs of the cache-contract properties.

Modelling choices:
* A Python value is `PyVal α`: either the distinguished `None` or a data
  value drawn from an arbitrary type `α`.  The codecs (`pickle.dump` /
  `pickle.load`, `torch.save` / `torch.load`) are modelled as the
  identity on values: a file's content is the `PyVal α` that was written,
  which is exactly equality "under the codec's equality notion".
* The filesystem is a pair of a set of existing directories and a map
  from file paths to contents; paths are lists of name segments.
* Raising an exception is modelled with `Except`: `KeyError` for the
  dictionary lookup in `Memory.__getitem__`, `FileNotFoundError` for
  `open`/`torch.load` on a missing file or directory.
-/

namespace Torchdata

/-- A Python value: either `None` or an opaque data value of type `α`
(the samples stored in the cache). -/
inductive PyVal (α : Type) where
  | pyNone : PyVal α
  | data : α → PyVal α
deriving DecidableEq

/-- Exceptions raised by the backends: `KeyError` from a dictionary
lookup, `FileNotFoundError` from opening a missing file or writing into
a missing directory. -/
inductive CacheErr where
  | keyError : CacheErr
  | fileNotFound : CacheErr
deriving DecidableEq

/-- A filesystem path, as a list of name segments. -/
abbrev FPath := List String

/-- Filesystem state: the set of existing directories and the existing
files with their (decoded) contents. -/
structure FS (α : Type) where
  dirs : List FPath
  files : List (FPath × PyVal α)
deriving DecidableEq

/-- The empty filesystem. -/
def FS.empty {α : Type} : FS α := ⟨[], []⟩

/-- `p.is_dir()`: does directory `p` exist? -/
def FS.isDir {α : Type} (fs : FS α) (p : FPath) : Bool :=
  fs.dirs.contains p

/-- Content of the file at `p`, if it exists. -/
def FS.lookupFile {α : Type} (fs : FS α) (p : FPath) : Option (PyVal α) :=
  (fs.files.find? fun e => e.1 == p).map (·.2)

/-- `p.is_file()`: does a file exist at `p`? -/
def FS.isFile {α : Type} (fs : FS α) (p : FPath) : Bool :=
  (fs.lookupFile p).isSome

/-- Write value `v` to the file at `p`, creating or overwriting it and
touching nothing else. -/
def FS.writeFile {α : Type} (fs : FS α) (p : FPath) (v : PyVal α) : FS α :=
  { fs with files := (p, v) :: fs.files.filter fun e => !(e.1 == p) }

/-- The nonempty ancestors of a path, the path itself included. -/
def FPath.ancestors (p : FPath) : List FPath :=
  (List.range p.length).map fun k => p.take (k + 1)

/-- `path.mkdir(parents=True, exist_ok=True)`: create the directory and
any missing ancestors; directories that already exist are left alone and
no file is touched. -/
def FS.mkdirParents {α : Type} (fs : FS α) (p : FPath) : FS α :=
  { fs with dirs := (FPath.ancestors p).filter (fun q => !(fs.dirs.contains q)) ++ fs.dirs }

/-- `q` lies strictly below directory `p`. -/
def FPath.under (p q : FPath) : Bool :=
  p.isPrefixOf q && p != q

/-- `shutil.rmtree p`: remove directory `p` with everything below it. -/
def FS.rmtree {α : Type} (fs : FS α) (p : FPath) : FS α :=
  { dirs := fs.dirs.filter fun q => !(p.isPrefixOf q),
    files := fs.files.filter fun e => !(FPath.under p e.1) }

/-- Position of the last `'.'` in a list of characters, scanning from
offset `i`. -/
def lastDotFrom : List Char → Nat → Option Nat
  | [], _ => none
  | c :: rest, i =>
    match lastDotFrom rest (i + 1) with
    | some j => some j
    | none => if c = '.' then some i else none

/-- Drop the `'.'`-separated suffix of a file name, if it has one.
Following `pathlib`, a dot in first or last position does not begin a
suffix. -/
def dropDotSuffix (cs : List Char) : List Char :=
  match lastDotFrom cs 0 with
  | some i => if 0 < i ∧ i < cs.length - 1 then cs.take i else cs
  | none => cs

/-- `PurePath.with_suffix`: replace the suffix of the final path
component by `suffix`.  (The source always passes a suffix beginning
with a dot, so `with_suffix`'s rejection of malformed suffixes is never
exercised and is not modelled.) -/
def withSuffix (name suffix : String) : String :=
  String.mk (dropDotSuffix name.toList) ++ suffix

/-- `Memory`: save and load data in a Python dictionary, modelled as an
association list from index to value. -/
structure Memory (α : Type) where
  cache : List (Int × PyVal α)
deriving DecidableEq

/-- `Memory.__init__`: `self.cache = {}`. -/
def Memory.init {α : Type} : Memory α := ⟨[]⟩

/-- `Memory.__contains__`: `index in self.cache`. -/
def Memory.mem {α : Type} (m : Memory α) (index : Int) : Bool :=
  (m.cache.find? fun e => e.1 == index).isSome

/-- `Memory.__setitem__`: `self.cache[index] = data` (insert or
overwrite the binding for `index`). -/
def Memory.setitem {α : Type} (m : Memory α) (index : Int) (d : PyVal α) : Memory α :=
  ⟨(index, d) :: m.cache.filter fun e => !(e.1 == index)⟩

/-- `Memory.__getitem__`: `self.cache[index]`; raises `KeyError` when
the index is absent. -/
def Memory.getitem {α : Type} (m : Memory α) (index : Int) : Except CacheErr (PyVal α) :=
  match m.cache.find? fun e => e.1 == index with
  | some e => .ok e.2
  | none => .error .keyError

/-- `Pickle`: save and load data from disk using `pickle`.  The fields
are `self.path` and `self.extension`. -/
structure Pickle where
  path : FPath
  extension : String
deriving DecidableEq

/-- `Pickle.__init__(path, extension=".pkl")`: record the fields and
`self.path.mkdir(parents=True, exist_ok=True)`. -/
def Pickle.init {α : Type} (fs : FS α) (path : FPath) (extension : String) :
    Pickle × FS α :=
  (⟨path, extension⟩, fs.mkdirParents path)

/-- `(self.path / str(index)).with_suffix(self.extension)`: the path of
the file caching `index`. -/
def Pickle.entryPath (c : Pickle) (index : Int) : FPath :=
  c.path ++ [withSuffix (toString index) c.extension]

/-- `Pickle.__contains__`: the entry file exists on disk (`is_file`). -/
def Pickle.mem {α : Type} (c : Pickle) (fs : FS α) (index : Int) : Bool :=
  fs.isFile (c.entryPath index)

/-- `Pickle.__setitem__`: `open(..., "wb")` then `pickle.dump(data, file)`.
`open` for writing raises `FileNotFoundError` when the directory is
missing; otherwise the entry file is created or overwritten. -/
def Pickle.setitem {α : Type} (c : Pickle) (fs : FS α) (index : Int) (d : PyVal α) :
    Except CacheErr (FS α) :=
  if fs.isDir c.path then .ok (fs.writeFile (c.entryPath index) d)
  else .error .fileNotFound

/-- `Pickle.__getitem__`: `open(..., "rb")` then `return pickle.load(file)`;
raises `FileNotFoundError` when the entry file is missing. -/
def Pickle.getitem {α : Type} (c : Pickle) (fs : FS α) (index : Int) :
    Except CacheErr (PyVal α) :=
  match fs.lookupFile (c.entryPath index) with
  | some d => .ok d
  | none => .error .fileNotFound

/-- `Pickle.clean`: `if self.path.is_dir(): shutil.rmtree(self.path)`. -/
def Pickle.clean {α : Type} (c : Pickle) (fs : FS α) : FS α :=
  if fs.isDir c.path then fs.rmtree c.path else fs

/-- `Pickle.__enter__`: `return self`. -/
def Pickle.enter (c : Pickle) : Pickle := c

/-- `Pickle.__exit__(*args)`: runs `self.clean()` and implicitly returns
`None`, a falsy value, so a pending exception is never suppressed. -/
def Pickle.exitScope {α : Type} (c : Pickle) (fs : FS α) : FS α × Bool :=
  (c.clean fs, false)

/-- A `with` block over a `Pickle` cacher: `__enter__` hands `self` to
the body, which transforms the filesystem and may raise an exception of
type `ε`; `__exit__` then runs on every exit path, and the exception, if
any, propagates unless `__exit__` returned a truthy value. -/
def Pickle.withScope {α ε : Type} (c : Pickle) (fs : FS α)
    (body : Pickle → FS α → FS α × Option ε) : FS α × Option ε :=
  let r := body c.enter fs
  let e := c.exitScope r.1
  (e.1, if e.2 then none else r.2)

/-- `Tensor`: save and load data from disk using `torch.save` /
`torch.load`.  The fields are `self.path` and `self.extension`; the
remaining constructor arguments (`map_location`, `pickle_module`,
`pickle_protocol`, `**pickle_load_args`) only configure the codec, which
this model treats as the identity on values, so they are not carried. -/
structure Tensor where
  path : FPath
  extension : String
deriving DecidableEq

/-- `Tensor.__init__(path, extension=".pt", ...)`: record the fields and
`self.path.mkdir(parents=True, exist_ok=True)`. -/
def Tensor.init {α : Type} (fs : FS α) (path : FPath) (extension : String) :
    Tensor × FS α :=
  (⟨path, extension⟩, fs.mkdirParents path)

/-- `(self.path / str(index)).with_suffix(self.extension)` for `Tensor`. -/
def Tensor.entryPath (c : Tensor) (index : Int) : FPath :=
  c.path ++ [withSuffix (toString index) c.extension]

/-- `Tensor.__contains__`: the entry file exists on disk (`is_file`). -/
def Tensor.mem {α : Type} (c : Tensor) (fs : FS α) (index : Int) : Bool :=
  fs.isFile (c.entryPath index)

/-- `Tensor.__setitem__`: `torch.save(data, path, ...)`; fails when the
directory is missing, otherwise creates or overwrites the entry file. -/
def Tensor.setitem {α : Type} (c : Tensor) (fs : FS α) (index : Int) (d : PyVal α) :
    Except CacheErr (FS α) :=
  if fs.isDir c.path then .ok (fs.writeFile (c.entryPath index) d)
  else .error .fileNotFound

/-- `Tensor.__getitem__`: calls `torch.load(...)` — which raises
`FileNotFoundError` on a missing file — but the loaded value is not
returned by the function body, so on success the call returns `None`. -/
def Tensor.getitem {α : Type} (c : Tensor) (fs : FS α) (index : Int) :
    Except CacheErr (PyVal α) :=
  match fs.lookupFile (c.entryPath index) with
  | some _ => .ok PyVal.pyNone
  | none => .error .fileNotFound

/-- `Tensor.clean`: `if self.path.is_dir(): shutil.rmtree(self.path)`. -/
def Tensor.clean {α : Type} (c : Tensor) (fs : FS α) : FS α :=
  if fs.isDir c.path then fs.rmtree c.path else fs

/-- `Tensor.__enter__`: `return self`. -/
def Tensor.enter (c : Tensor) : Tensor := c

/-- `Tensor.__exit__(*args)`: runs `self.clean()` and implicitly returns
`None`, a falsy value, so a pending exception is never suppressed. -/
def Tensor.exitScope {α : Type} (c : Tensor) (fs : FS α) : FS α × Bool :=
  (c.clean fs, false)

/-- A `with` block over a `Tensor` cacher, with the same protocol as
`Pickle.withScope`. -/
def Tensor.withScope {α ε : Type} (c : Tensor) (fs : FS α)
    (body : Tensor → FS α → FS α × Option ε) : FS α × Option ε :=
  let r := body c.enter fs
  let e := c.exitScope r.1
  (e.1, if e.2 then none else r.2)

/-! Helper lemmas. -/

theorem list_contains_iff {β : Type} [BEq β] [LawfulBEq β] {l : List β} {a : β} :
    l.contains a = true ↔ a ∈ l :=
  List.elem_iff

theorem isPrefixOf_self {β : Type} [BEq β] [LawfulBEq β] (l : List β) :
    l.isPrefixOf l = true := by
  induction l with
  | nil => rfl
  | cons a t ih => simp [List.isPrefixOf, ih]

theorem digitChar_of_ge_16 (n : Nat) (h : 16 ≤ n) : Nat.digitChar n = '*' := by
  have hne : ∀ m : Nat, m < 16 → n ≠ m := fun m hm => by omega
  simp [Nat.digitChar, hne 0 (by norm_num), hne 1 (by norm_num), hne 2 (by norm_num),
    hne 3 (by norm_num), hne 4 (by norm_num), hne 5 (by norm_num), hne 6 (by norm_num),
    hne 7 (by norm_num), hne 8 (by norm_num), hne 9 (by norm_num), hne 10 (by norm_num),
    hne 11 (by norm_num), hne 12 (by norm_num), hne 13 (by norm_num), hne 14 (by norm_num),
    hne 15 (by norm_num)]

theorem digitChar_ne_dot (n : Nat) : Nat.digitChar n ≠ '.' := by
  by_cases h : n < 16
  · interval_cases n <;> decide
  · rw [digitChar_of_ge_16 n (by omega)]
    decide

theorem toDigitsCore_ne_dot (b : Nat) :
    ∀ (fuel n : Nat) (ds : List Char), (∀ ch ∈ ds, ch ≠ '.') →
      ∀ ch ∈ Nat.toDigitsCore b fuel n ds, ch ≠ '.' := by
  intro fuel
  induction fuel with
  | zero =>
    intro n ds h ch hch
    exact h ch hch
  | succ f ih =>
    intro n ds h ch hch
    have hcons : ∀ c ∈ Nat.digitChar (n % b) :: ds, c ≠ '.' := by
      intro c hc
      rcases List.mem_cons.mp hc with hc | hc
      · exact hc ▸ digitChar_ne_dot (n % b)
      · exact h c hc
    unfold Nat.toDigitsCore at hch
    dsimp only at hch
    split at hch
    · exact hcons ch hch
    · exact ih (n / b) (Nat.digitChar (n % b) :: ds) hcons ch hch

theorem natRepr_ne_dot (n : Nat) : ∀ ch ∈ (Nat.repr n).toList, ch ≠ '.' := by
  intro ch hch
  exact toDigitsCore_ne_dot 10 (n + 1) n [] (by intro c hc; cases hc) ch hch

theorem toString_int_ne_dot (i : Int) : ∀ ch ∈ (toString i).toList, ch ≠ '.' := by
  cases i with
  | ofNat m => exact natRepr_ne_dot m
  | negSucc m =>
    intro ch hch
    have hch' : ch ∈ '-' :: (Nat.repr (m + 1)).toList := hch
    rcases List.mem_cons.mp hch' with hc | hc
    · exact hc ▸ (by decide)
    · exact natRepr_ne_dot (m + 1) ch hc

theorem lastDotFrom_eq_none (cs : List Char) (h : ∀ ch ∈ cs, ch ≠ '.') :
    ∀ i : Nat, lastDotFrom cs i = none := by
  induction cs with
  | nil => intro i; rfl
  | cons c rest ih =>
    intro i
    have hc : c ≠ '.' := h c (List.mem_cons_self c rest)
    have hrest : ∀ ch ∈ rest, ch ≠ '.' := fun ch hm => h ch (List.mem_cons_of_mem c hm)
    unfold lastDotFrom
    rw [ih hrest (i + 1)]
    simp [hc]

theorem withSuffix_no_dot (name suffix : String) (h : ∀ ch ∈ name.toList, ch ≠ '.') :
    withSuffix name suffix = name ++ suffix := by
  unfold withSuffix dropDotSuffix
  rw [lastDotFrom_eq_none name.toList h 0]
  rfl

theorem pickle_entryPath_decimal (c : Pickle) (i : Int) :
    c.entryPath i = c.path ++ [toString i ++ c.extension] := by
  unfold Pickle.entryPath
  rw [withSuffix_no_dot (toString i) c.extension (toString_int_ne_dot i)]

theorem tensor_entryPath_decimal (c : Tensor) (i : Int) :
    c.entryPath i = c.path ++ [toString i ++ c.extension] := by
  unfold Tensor.entryPath
  rw [withSuffix_no_dot (toString i) c.extension (toString_int_ne_dot i)]

theorem find?_key_filter {κ β : Type} [BEq κ] [LawfulBEq κ] (k q : κ) (hqk : q ≠ k)
    (l : List (κ × β)) :
    (l.filter fun e => !(e.1 == k)).find? (fun e => e.1 == q) =
      l.find? fun e => e.1 == q := by
  induction l with
  | nil => rfl
  | cons e t ih =>
    by_cases hek : e.1 = k
    · have hne : (e.1 == q) ≠ true := by
        rw [hek]
        intro hx
        exact hqk (eq_of_beq hx).symm
      rw [List.filter_cons_of_neg (p := fun (e : κ × β) => !(e.1 == k)) (by simp [hek]),
        List.find?_cons_of_neg (p := fun (e : κ × β) => e.1 == q) _ hne, ih]
    · have hkeep : (!(e.1 == k)) = true := by simp [hek]
      by_cases heq : e.1 = q
      · have hpos : (e.1 == q) = true := by simp [heq]
        rw [List.filter_cons_of_pos (p := fun (e : κ × β) => !(e.1 == k)) hkeep,
          List.find?_cons_of_pos (p := fun (e : κ × β) => e.1 == q) _ hpos,
          List.find?_cons_of_pos (p := fun (e : κ × β) => e.1 == q) _ hpos]
      · have hne : (e.1 == q) ≠ true := by simp [heq]
        rw [List.filter_cons_of_pos (p := fun (e : κ × β) => !(e.1 == k)) hkeep,
          List.find?_cons_of_neg (p := fun (e : κ × β) => e.1 == q) _ hne,
          List.find?_cons_of_neg (p := fun (e : κ × β) => e.1 == q) _ hne, ih]

theorem find?_key_overwrite_self {κ β : Type} [BEq κ] [LawfulBEq κ] (k : κ) (v : β)
    (l : List (κ × β)) :
    ((k, v) :: l.filter fun e => !(e.1 == k)).find? (fun e => e.1 == k) = some (k, v) := by
  simp [List.find?]

theorem find?_key_overwrite_ne {κ β : Type} [BEq κ] [LawfulBEq κ] (k q : κ) (v : β)
    (hqk : q ≠ k) (l : List (κ × β)) :
    ((k, v) :: l.filter fun e => !(e.1 == k)).find? (fun e => e.1 == q) =
      l.find? fun e => e.1 == q := by
  have hne : (((k, v) : κ × β).1 == q) ≠ true := by
    intro hx
    exact hqk (eq_of_beq hx).symm
  rw [List.find?_cons_of_neg (p := fun (e : κ × β) => e.1 == q) _ hne]
  exact find?_key_filter k q hqk l

theorem lookupFile_writeFile_self {α : Type} (fs : FS α) (p : FPath) (v : PyVal α) :
    (fs.writeFile p v).lookupFile p = some v := by
  unfold FS.writeFile FS.lookupFile
  rw [find?_key_overwrite_self p v fs.files]
  rfl

theorem lookupFile_writeFile_ne {α : Type} (fs : FS α) (p q : FPath) (v : PyVal α)
    (h : q ≠ p) : (fs.writeFile p v).lookupFile q = fs.lookupFile q := by
  unfold FS.writeFile FS.lookupFile
  rw [find?_key_overwrite_ne p q v h fs.files]

theorem mem_map_fst_filter {κ β : Type} [BEq κ] [LawfulBEq κ] {k q : κ} {l : List (κ × β)} :
    (q ∈ (l.filter fun e => !(e.1 == k)).map Prod.fst) ↔
      (q ≠ k ∧ q ∈ l.map Prod.fst) := by
  simp only [List.mem_map, List.mem_filter, Bool.not_eq_eq_eq_not, Bool.not_true, beq_eq_false_iff_ne]
  constructor
  · rintro ⟨e, ⟨hmem, hne⟩, hq⟩
    exact ⟨hq ▸ hne, e, hmem, hq⟩
  · rintro ⟨hne, e, hmem, hq⟩
    exact ⟨e, ⟨hmem, hq ▸ hne⟩, hq⟩

theorem isDir_rmtree_self {α : Type} (fs : FS α) (p : FPath) :
    (fs.rmtree p).isDir p = false := by
  unfold FS.rmtree FS.isDir
  rcases hcon : List.contains (fs.dirs.filter fun q => !(p.isPrefixOf q)) p with _ | _
  · rfl
  · exfalso
    have hmem := list_contains_iff.mp hcon
    have := (List.mem_filter.mp hmem).2
    rw [isPrefixOf_self p] at this
    exact absurd this (by decide)

theorem rmtree_dirs_not_under {α : Type} (fs : FS α) (p : FPath) :
    ((fs.rmtree p).dirs.all fun q => !(p.isPrefixOf q)) = true := by
  rw [List.all_eq_true]
  intro q hq
  exact (List.mem_filter.mp hq).2

theorem rmtree_files_not_under {α : Type} (fs : FS α) (p : FPath) :
    ((fs.rmtree p).files.all fun e => !(FPath.under p e.1)) = true := by
  rw [List.all_eq_true]
  intro e he
  exact (List.mem_filter.mp he).2

theorem pickle_isDir_clean_self {α : Type} (c : Pickle) (fs : FS α) :
    FS.isDir (c.clean fs) c.path = false := by
  unfold Pickle.clean
  split
  · exact isDir_rmtree_self fs c.path
  · next h => simpa using h

theorem tensor_isDir_clean_self {α : Type} (c : Tensor) (fs : FS α) :
    FS.isDir (c.clean fs) c.path = false := by
  unfold Tensor.clean
  split
  · exact isDir_rmtree_self fs c.path
  · next h => simpa using h

theorem pickle_clean_clean {α : Type} (c : Pickle) (fs : FS α) :
    c.clean (c.clean fs) = c.clean fs := by
  have h := pickle_isDir_clean_self c fs
  show (if FS.isDir (c.clean fs) c.path = true then (c.clean fs).rmtree c.path
    else c.clean fs) = c.clean fs
  rw [h]
  simp

theorem tensor_clean_clean {α : Type} (c : Tensor) (fs : FS α) :
    c.clean (c.clean fs) = c.clean fs := by
  have h := tensor_isDir_clean_self c fs
  show (if FS.isDir (c.clean fs) c.path = true then (c.clean fs).rmtree c.path
    else c.clean fs) = c.clean fs
  rw [h]
  simp

theorem pickle_setitem_ok {α : Type} {c : Pickle} {fs fs2 : FS α} {i : Int} {v : PyVal α}
    (h : c.setitem fs i v = Except.ok fs2) :
    fs.isDir c.path = true ∧ fs2 = fs.writeFile (c.entryPath i) v := by
  unfold Pickle.setitem at h
  split at h
  · next hdir => exact ⟨hdir, by injection h with h; exact h.symm⟩
  · cases h

theorem tensor_setitem_ok {α : Type} {c : Tensor} {fs fs2 : FS α} {i : Int} {v : PyVal α}
    (h : c.setitem fs i v = Except.ok fs2) :
    fs.isDir c.path = true ∧ fs2 = fs.writeFile (c.entryPath i) v := by
  unfold Tensor.setitem at h
  split at h
  · next hdir => exact ⟨hdir, by injection h with h; exact h.symm⟩
  · cases h

theorem contains_mkdirParents {α : Type} (fs : FS α) (p q : FPath)
    (h : q ∈ FPath.ancestors p) : (fs.mkdirParents p).dirs.contains q = true := by
  rw [list_contains_iff]
  show q ∈ (FPath.ancestors p).filter (fun r => !(fs.dirs.contains r)) ++ fs.dirs
  rcases hc : fs.dirs.contains q with _ | _
  · exact List.mem_append_left _ (List.mem_filter.mpr ⟨h, by rw [hc]; rfl⟩)
  · exact List.mem_append_right _ (list_contains_iff.mp hc)

theorem mkdirParents_idem {α : Type} (fs : FS α) (p : FPath) :
    (fs.mkdirParents p).mkdirParents p = fs.mkdirParents p := by
  have hnil :
      ((FPath.ancestors p).filter fun q => !((fs.mkdirParents p).dirs.contains q)) = [] := by
    rw [List.filter_eq_nil_iff]
    intro q hq
    rw [contains_mkdirParents fs p q hq]
    decide
  show FS.mk _ _ = _
  rw [hnil]
  rfl

theorem mem_map_fst_writeFile {α : Type} (fs : FS α) (p q : FPath) (v : PyVal α) :
    q ∈ (fs.writeFile p v).files.map Prod.fst ↔ (q = p ∨ q ∈ fs.files.map Prod.fst) := by
  show q ∈ ((p, v) :: fs.files.filter fun e => !(e.1 == p)).map Prod.fst ↔ _
  simp only [List.map_cons, List.mem_cons]
  constructor
  · rintro (h1 | h1)
    · exact Or.inl h1
    · exact Or.inr (mem_map_fst_filter.mp h1).2
  · rintro (h1 | h1)
    · exact Or.inl h1
    · by_cases hqp : q = p
      · exact Or.inl hqp
      · exact Or.inr (mem_map_fst_filter.mpr ⟨hqp, h1⟩)

/-- Persistence for the generic disk backend: a second `Pickle` instance
constructed over the same directory and extension keeps every file, sees
the entry stored through the first instance and loads the stored value
back. -/
theorem pickle_persistence (α : Type) (fs fs2 : FS α) (p : FPath) (ext : String)
    (i : Int) (v : PyVal α)
    (h : (Pickle.init fs p ext).1.setitem (Pickle.init fs p ext).2 i v = Except.ok fs2) :
    ((Pickle.init fs2 p ext).2).files = fs2.files ∧
    (Pickle.init fs2 p ext).1.mem (Pickle.init fs2 p ext).2 i = true ∧
    (Pickle.init fs2 p ext).1.getitem (Pickle.init fs2 p ext).2 i = Except.ok v := by
  obtain ⟨hdir, hw⟩ := pickle_setitem_ok h
  subst hw
  refine ⟨rfl, ?_, ?_⟩
  · show (FS.lookupFile (FS.writeFile ((Pickle.init fs p ext).2)
      (Pickle.entryPath ⟨p, ext⟩ i) v) (Pickle.entryPath ⟨p, ext⟩ i)).isSome = true
    rw [lookupFile_writeFile_self]
    rfl
  · show Pickle.getitem ⟨p, ext⟩ (FS.writeFile ((Pickle.init fs p ext).2)
      (Pickle.entryPath ⟨p, ext⟩ i) v) i = Except.ok v
    unfold Pickle.getitem
    rw [lookupFile_writeFile_self]

/-! Concrete example states used by the claim witnesses. -/

/-- Example `Pickle` cacher at directory `cache` with extension `.pkl`. -/
def exPkl : Pickle := ⟨["cache"], ".pkl"⟩

/-- Filesystem after `Pickle.__init__` at directory `cache`. -/
def exFS1 : FS Nat := FS.mkdirParents FS.empty ["cache"]

/-- Filesystem after additionally storing `data 7` at index `3`. -/
def exFS2 : FS Nat := FS.writeFile exFS1 (exPkl.entryPath 3) (PyVal.data 7)

/-- Filesystem after additionally storing `data 9` at index `-5`. -/
def exFSneg : FS Nat := FS.writeFile exFS1 (exPkl.entryPath (-5)) (PyVal.data 9)

/-- Example `Tensor` cacher at directory `tcache` with extension `.pt`. -/
def exTen : Tensor := ⟨["tcache"], ".pt"⟩

/-- Filesystem after `Tensor.__init__` at directory `tcache`. -/
def exGS1 : FS Nat := FS.mkdirParents FS.empty ["tcache"]

/-- Filesystem after additionally storing `data 7` at index `3`. -/
def exGS2 : FS Nat := FS.writeFile exGS1 (exTen.entryPath 3) (PyVal.data 7)

/-- Filesystem after additionally storing `data 9` at index `-5`. -/
def exGSneg : FS Nat := FS.writeFile exGS1 (exTen.entryPath (-5)) (PyVal.data 9)

/-! The claims. -/

/-- C1: the claim fails on the code for the `Tensor` backend: after
`store(0, 42)`, `contains(0)` is true and the entry file holds `42`, but
`load(0)` returns Python `None` — not a value equal to the stored one —
because `Tensor.__getitem__` never returns the result of `torch.load`. -/
theorem c1_tensor_load_returns_none :
    ∃ (c : Tensor) (fs1 fs2 : FS Nat),
      Tensor.init FS.empty ["cache"] (".pt") = (c, fs1) ∧
      c.setitem fs1 0 (PyVal.data 42) = Except.ok fs2 ∧
      c.mem fs2 0 = true ∧
      fs2.lookupFile (c.entryPath 0) = some (PyVal.data 42) ∧
      c.getitem fs2 0 = Except.ok PyVal.pyNone ∧
      PyVal.pyNone ≠ (PyVal.data 42 : PyVal Nat) := by
  refine ⟨_, _, _, rfl, rfl, rfl, rfl, rfl, by decide⟩

/-- C2: an index that was never stored is not contained: a freshly
constructed `Memory` backend contains no index, and a disk backend whose
directory holds no file for `i` (in particular right after construction,
which creates directories but no files) reports `contains(i)` false. -/
theorem c2_never_stored_not_contained (α : Type) :
    (∀ i : Int, Memory.mem (Memory.init : Memory α) i = false) ∧
    (∀ (fs : FS α) (p : FPath) (ext : String) (i : Int),
      fs.isFile (Pickle.entryPath ⟨p, ext⟩ i) = false →
      Pickle.mem (Pickle.init fs p ext).1 (Pickle.init fs p ext).2 i = false) ∧
    (∀ (fs : FS α) (p : FPath) (ext : String) (i : Int),
      fs.isFile (Tensor.entryPath ⟨p, ext⟩ i) = false →
      Tensor.mem (Tensor.init fs p ext).1 (Tensor.init fs p ext).2 i = false) :=
  ⟨fun _ => rfl, fun _ _ _ _ h => h, fun _ _ _ _ h => h⟩

/-- C2 witness: concrete instantiation at index 3. -/
theorem c2_witness :
    Memory.mem (Memory.init : Memory Nat) 3 = false ∧
    Pickle.mem (Pickle.init (FS.empty : FS Nat) ["cache"] (".pkl")).1
      (Pickle.init (FS.empty : FS Nat) ["cache"] (".pkl")).2 3 = false ∧
    Tensor.mem (Tensor.init (FS.empty : FS Nat) ["tcache"] (".pt")).1
      (Tensor.init (FS.empty : FS Nat) ["tcache"] (".pt")).2 3 = false := by
  have h := c2_never_stored_not_contained Nat
  exact ⟨h.1 3, h.2.1 FS.empty ["cache"] (".pkl") 3 rfl,
    h.2.2 FS.empty ["tcache"] (".pt") 3 rfl⟩

/-- C3: counter-evidence: with the `Tensor` backend, after `store(0, 1)`
then `store(0, 2)` the second store did overwrite the entry file with
`2`, but `load(0)` yields `None` — neither `v2` nor `v1` — because
`Tensor.__getitem__` never returns the loaded value. -/
theorem c3_tensor_overwrite_load_returns_none :
    ∃ (c : Tensor) (fs1 fs2 fs3 : FS Nat),
      Tensor.init FS.empty ["cache"] (".pt") = (c, fs1) ∧
      c.setitem fs1 0 (PyVal.data 1) = Except.ok fs2 ∧
      c.setitem fs2 0 (PyVal.data 2) = Except.ok fs3 ∧
      fs3.lookupFile (c.entryPath 0) = some (PyVal.data 2) ∧
      c.getitem fs3 0 = Except.ok PyVal.pyNone ∧
      Except.ok PyVal.pyNone ≠ (Except.ok (PyVal.data 2) : Except CacheErr (PyVal Nat)) := by
  refine ⟨_, _, _, _, rfl, rfl, rfl, rfl, rfl, by simp⟩

/-- C4: counter-evidence: with the `Tensor` backend, a second instance
constructed over the same directory and extension is the same cacher
over an unchanged filesystem — construction is idempotent and leaves the
stored entry intact — and it finds `contains(0)` true, but its `load(0)`
returns `None` rather than the value `42` stored by the first
instance. -/
theorem c4_tensor_second_instance_load_returns_none :
    ∃ (c1 : Tensor) (fs1 fs2 : FS Nat) (c2 : Tensor) (fs3 : FS Nat),
      Tensor.init FS.empty ["cache"] (".pt") = (c1, fs1) ∧
      c1.setitem fs1 0 (PyVal.data 42) = Except.ok fs2 ∧
      Tensor.init fs2 ["cache"] (".pt") = (c2, fs3) ∧
      c2 = c1 ∧
      fs3 = fs2 ∧
      c2.mem fs3 0 = true ∧
      c2.getitem fs3 0 = Except.ok PyVal.pyNone ∧
      Except.ok PyVal.pyNone ≠ (Except.ok (PyVal.data 42) : Except CacheErr (PyVal Nat)) := by
  refine ⟨_, _, _, _, _, rfl, rfl, rfl, rfl, by decide, rfl, rfl, by simp⟩

/-- C5: `clean()` on the disk backends: when the directory is absent it
is a no-op that changes nothing; when the directory exists it removes
the directory and, recursively, every directory and file below it; and
cleaning twice in a row equals cleaning once. -/
theorem c5_clean_removes_or_noop (α : Type) (c : Pickle) (t : Tensor) (fs : FS α) :
    (fs.isDir c.path = false → c.clean fs = fs) ∧
    (fs.isDir c.path = true →
      FS.isDir (c.clean fs) c.path = false ∧
      ((c.clean fs).dirs.all fun q => !(c.path.isPrefixOf q)) = true ∧
      ((c.clean fs).files.all fun e => !(FPath.under c.path e.1)) = true) ∧
    c.clean (c.clean fs) = c.clean fs ∧
    (fs.isDir t.path = false → t.clean fs = fs) ∧
    (fs.isDir t.path = true →
      FS.isDir (t.clean fs) t.path = false ∧
      ((t.clean fs).dirs.all fun q => !(t.path.isPrefixOf q)) = true ∧
      ((t.clean fs).files.all fun e => !(FPath.under t.path e.1)) = true) ∧
    t.clean (t.clean fs) = t.clean fs := by
  refine ⟨?_, ?_, pickle_clean_clean c fs, ?_, ?_, tensor_clean_clean t fs⟩
  · intro h
    simp [Pickle.clean, h]
  · intro h
    have hc : c.clean fs = fs.rmtree c.path := by simp [Pickle.clean, h]
    rw [hc]
    exact ⟨isDir_rmtree_self fs c.path, rmtree_dirs_not_under fs c.path,
      rmtree_files_not_under fs c.path⟩
  · intro h
    simp [Tensor.clean, h]
  · intro h
    have hc : t.clean fs = fs.rmtree t.path := by simp [Tensor.clean, h]
    rw [hc]
    exact ⟨isDir_rmtree_self fs t.path, rmtree_dirs_not_under fs t.path,
      rmtree_files_not_under fs t.path⟩

/-- C5 witness: a no-op clean on the empty filesystem, and a real clean
of a directory holding one entry. -/
theorem c5_witness :
    Pickle.clean exPkl (FS.empty : FS Nat) = FS.empty ∧
    FS.isDir (Pickle.clean exPkl exFS2) ["cache"] = false ∧
    ((Pickle.clean exPkl exFS2).files.all fun e => !(FPath.under ["cache"] e.1)) = true ∧
    Tensor.clean exTen (FS.empty : FS Nat) = FS.empty := by
  have h1 := c5_clean_removes_or_noop Nat exPkl exTen FS.empty
  have h2 := c5_clean_removes_or_noop Nat exPkl exTen exFS2
  exact ⟨h1.1 rfl, (h2.2.1 rfl).1, (h2.2.1 rfl).2.2, h1.2.2.2.1 rfl⟩

/-- C6: scoped use of a disk backend: `__enter__` returns the backend
itself, and on every scope exit — normal or exceptional — the resulting
state is `clean` applied once to the body's final filesystem, so the
storage directory no longer exists afterwards; when the directory
existed at body exit (for instance holding entries from prior runs), no
file below it survives. -/
theorem c6_scope_cleans_directory (α ε : Type) (c : Pickle) (t : Tensor) (fs gs : FS α)
    (body : Pickle → FS α → FS α × Option ε) (tbody : Tensor → FS α → FS α × Option ε) :
    Pickle.enter c = c ∧
    c.withScope fs body = (c.clean (body c fs).1, (body c fs).2) ∧
    FS.isDir (c.withScope fs body).1 c.path = false ∧
    (FS.isDir (body c fs).1 c.path = true →
      ((c.withScope fs body).1.files.all fun e => !(FPath.under c.path e.1)) = true) ∧
    Tensor.enter t = t ∧
    t.withScope gs tbody = (t.clean (tbody t gs).1, (tbody t gs).2) ∧
    FS.isDir (t.withScope gs tbody).1 t.path = false ∧
    (FS.isDir (tbody t gs).1 t.path = true →
      ((t.withScope gs tbody).1.files.all fun e => !(FPath.under t.path e.1)) = true) := by
  refine ⟨rfl, rfl, pickle_isDir_clean_self c (body c fs).1, ?_, rfl, rfl,
    tensor_isDir_clean_self t (tbody t gs).1, ?_⟩
  · intro h
    show ((c.clean (body c fs).1).files.all fun e => !(FPath.under c.path e.1)) = true
    have hc : c.clean (body c fs).1 = (body c fs).1.rmtree c.path := by
      simp [Pickle.clean, h]
    rw [hc]
    exact rmtree_files_not_under (body c fs).1 c.path
  · intro h
    show ((t.clean (tbody t gs).1).files.all fun e => !(FPath.under t.path e.1)) = true
    have hc : t.clean (tbody t gs).1 = (tbody t gs).1.rmtree t.path := by
      simp [Tensor.clean, h]
    rw [hc]
    exact rmtree_files_not_under (tbody t gs).1 t.path

/-- C6 witness: a scope body that leaves the stored entry in place; on
exit the directory is gone and no file below it remains. -/
theorem c6_witness :
    Pickle.enter exPkl = exPkl ∧
    FS.isDir (Pickle.withScope exPkl exFS2 (fun _ f => (f, (none : Option Nat)))).1
      ["cache"] = false ∧
    ((Pickle.withScope exPkl exFS2 (fun _ f => (f, (none : Option Nat)))).1.files.all
      fun e => !(FPath.under ["cache"] e.1)) = true ∧
    Tensor.enter exTen = exTen := by
  have h := c6_scope_cleans_directory Nat Nat exPkl exTen exFS2 exGS2
    (fun _ f => (f, none)) (fun _ f => (f, none))
  exact ⟨h.1, h.2.2.1, h.2.2.2.1 rfl, h.2.2.2.2.1⟩

/-- C7: `load(i)` fails exactly when `contains(i)` is false — with a
`KeyError` for `Memory` and a `FileNotFoundError` for the disk backends,
the error propagating to the caller as the call's result — and succeeds
exactly when `contains(i)` is true. -/
theorem c7_load_fails_iff_not_contained (α : Type) (m : Memory α) (c : Pickle)
    (t : Tensor) (fs : FS α) (i : Int) :
    (m.mem i = false ↔ m.getitem i = Except.error CacheErr.keyError) ∧
    (m.mem i = true ↔ ∃ v, m.getitem i = Except.ok v) ∧
    (c.mem fs i = false ↔ c.getitem fs i = Except.error CacheErr.fileNotFound) ∧
    (c.mem fs i = true ↔ ∃ v, c.getitem fs i = Except.ok v) ∧
    (t.mem fs i = false ↔ t.getitem fs i = Except.error CacheErr.fileNotFound) ∧
    (t.mem fs i = true ↔ ∃ v, t.getitem fs i = Except.ok v) := by
  refine ⟨?_, ?_, ?_, ?_, ?_, ?_⟩
  · unfold Memory.mem Memory.getitem
    rcases hf : m.cache.find? fun e => e.1 == i with _ | e <;> simp [hf]
  · unfold Memory.mem Memory.getitem
    rcases hf : m.cache.find? fun e => e.1 == i with _ | e <;> simp [hf]
  · unfold Pickle.mem FS.isFile Pickle.getitem
    rcases hf : fs.lookupFile (c.entryPath i) with _ | d <;> simp [hf]
  · unfold Pickle.mem FS.isFile Pickle.getitem
    rcases hf : fs.lookupFile (c.entryPath i) with _ | d <;> simp [hf]
  · unfold Tensor.mem FS.isFile Tensor.getitem
    rcases hf : fs.lookupFile (t.entryPath i) with _ | d <;> simp [hf]
  · unfold Tensor.mem FS.isFile Tensor.getitem
    rcases hf : fs.lookupFile (t.entryPath i) with _ | d <;> simp [hf]

/-- C7 witness: the not-found errors at a concrete absent index. -/
theorem c7_witness :
    Memory.getitem (Memory.init : Memory Nat) 3 = Except.error CacheErr.keyError ∧
    Pickle.getitem exPkl (FS.empty : FS Nat) 3 = Except.error CacheErr.fileNotFound ∧
    Tensor.getitem exTen (FS.empty : FS Nat) 3 = Except.error CacheErr.fileNotFound := by
  have h := c7_load_fails_iff_not_contained Nat Memory.init exPkl exTen FS.empty 3
  exact ⟨h.1.mp rfl, h.2.2.1.mp rfl, h.2.2.2.2.1.mp rfl⟩

/-- C8: storing on a disk backend writes exactly one file, named by the
decimal index followed by the configured extension, directly inside the
storage directory: the entry file holds the value, every other file is
untouched, no directory is created or removed, and the set of file paths
grows by exactly the entry path. -/
theorem c8_store_writes_exactly_one_file (α : Type) (c : Pickle) (t : Tensor)
    (fs fs2 gs gs2 : FS α) (i : Int) (v : PyVal α)
    (h : c.setitem fs i v = Except.ok fs2) (ht : t.setitem gs i v = Except.ok gs2) :
    c.entryPath i = c.path ++ [toString i ++ c.extension] ∧
    fs2.lookupFile (c.entryPath i) = some v ∧
    (∀ q : FPath, q ≠ c.entryPath i → fs2.lookupFile q = fs.lookupFile q) ∧
    fs2.dirs = fs.dirs ∧
    (∀ q : FPath, q ∈ fs2.files.map Prod.fst ↔
      (q = c.entryPath i ∨ q ∈ fs.files.map Prod.fst)) ∧
    t.entryPath i = t.path ++ [toString i ++ t.extension] ∧
    gs2.lookupFile (t.entryPath i) = some v ∧
    (∀ q : FPath, q ≠ t.entryPath i → gs2.lookupFile q = gs.lookupFile q) ∧
    gs2.dirs = gs.dirs ∧
    (∀ q : FPath, q ∈ gs2.files.map Prod.fst ↔
      (q = t.entryPath i ∨ q ∈ gs.files.map Prod.fst)) := by
  obtain ⟨hdir, hw⟩ := pickle_setitem_ok h
  obtain ⟨hdir2, hw2⟩ := tensor_setitem_ok ht
  subst hw hw2
  exact ⟨pickle_entryPath_decimal c i, lookupFile_writeFile_self fs _ v,
    fun q hq => lookupFile_writeFile_ne fs _ q v hq, rfl,
    fun q => mem_map_fst_writeFile fs (c.entryPath i) q v,
    tensor_entryPath_decimal t i, lookupFile_writeFile_self gs _ v,
    fun q hq => lookupFile_writeFile_ne gs _ q v hq, rfl,
    fun q => mem_map_fst_writeFile gs (t.entryPath i) q v⟩

/-- C8 witness: concrete store at index 3 in both disk backends. -/
theorem c8_witness :
    Pickle.entryPath exPkl 3 = ["cache", "3.pkl"] ∧
    FS.lookupFile exFS2 (Pickle.entryPath exPkl 3) = some (PyVal.data 7) ∧
    FS.lookupFile exFS2 ["cache", "other.pkl"] = FS.lookupFile exFS1 ["cache", "other.pkl"] ∧
    exFS2.dirs = exFS1.dirs ∧
    Tensor.entryPath exTen 3 = ["tcache", "3.pt"] ∧
    FS.lookupFile exGS2 (Tensor.entryPath exTen 3) = some (PyVal.data 7) := by
  have h := c8_store_writes_exactly_one_file Nat exPkl exTen exFS1 exFS2 exGS1 exGS2 3
    (PyVal.data 7) rfl rfl
  refine ⟨?_, h.2.1, h.2.2.1 ["cache", "other.pkl"] (by decide), h.2.2.2.1, ?_,
    h.2.2.2.2.2.2.1⟩
  · rw [h.1]
    rfl
  · rw [h.2.2.2.2.2.1]
    rfl

/-- C9: when the body of a disk backend's scope raises, `__exit__` runs
`clean()` and returns a falsy value, so the same exception keeps
propagating to the caller after the storage directory is removed. -/
theorem c9_exit_does_not_suppress (α ε : Type) (c : Pickle) (t : Tensor)
    (fs fs1 gs gs1 : FS α) (e1 e2 : ε)
    (body : Pickle → FS α → FS α × Option ε) (tbody : Tensor → FS α → FS α × Option ε)
    (h : body c fs = (fs1, some e1)) (ht : tbody t gs = (gs1, some e2)) :
    c.withScope fs body = (c.clean fs1, some e1) ∧
    t.withScope gs tbody = (t.clean gs1, some e2) := by
  unfold Pickle.withScope Tensor.withScope
  rw [show Pickle.enter c = c from rfl, show Tensor.enter t = t from rfl, h, ht]
  exact ⟨rfl, rfl⟩

/-- C9 witness: bodies that raise concrete exceptions. -/
theorem c9_witness :
    Pickle.withScope exPkl exFS2 (fun _ f => (f, some (5 : Nat))) =
      (Pickle.clean exPkl exFS2, some 5) ∧
    Tensor.withScope exTen exGS2 (fun _ f => (f, some (6 : Nat))) =
      (Tensor.clean exTen exGS2, some 6) :=
  c9_exit_does_not_suppress Nat Nat exPkl exTen exFS2 exFS2 exGS2 exGS2 5 6
    (fun _ f => (f, some 5)) (fun _ f => (f, some 6)) rfl rfl

/-- C10: no backend validates that the index is non-negative: for every
integer index, negative ones included, both disk backends name the entry
file by the decimal rendering of the index followed by the extension
(`-5.pkl`, `-5.pt`), store and contains behave uniformly in the index,
and the store-contains-load round trip holds for negative indices
exactly as for non-negative ones — fully for `Pickle` and `Memory`, and
for `Tensor` with its sign-independent load result `None` (every index,
negative or not, hits the defect recorded at C1). -/
theorem c10_negative_indices_uniform (α : Type) (c : Pickle) (t : Tensor)
    (fs fs2 gs gs2 : FS α) (m : Memory α) (i : Int) (v : PyVal α)
    (h : c.setitem fs i v = Except.ok fs2) (ht : t.setitem gs i v = Except.ok gs2) :
    c.entryPath i = c.path ++ [toString i ++ c.extension] ∧
    c.mem fs2 i = true ∧
    c.getitem fs2 i = Except.ok v ∧
    t.entryPath i = t.path ++ [toString i ++ t.extension] ∧
    t.mem gs2 i = true ∧
    t.getitem gs2 i = Except.ok PyVal.pyNone ∧
    (m.setitem i v).mem i = true ∧
    (m.setitem i v).getitem i = Except.ok v := by
  obtain ⟨hdir, hw⟩ := pickle_setitem_ok h
  obtain ⟨hdir2, hw2⟩ := tensor_setitem_ok ht
  subst hw hw2
  refine ⟨pickle_entryPath_decimal c i, ?_, ?_, tensor_entryPath_decimal t i, ?_, ?_, ?_, ?_⟩
  · show (FS.lookupFile (fs.writeFile (c.entryPath i) v) (c.entryPath i)).isSome = true
    rw [lookupFile_writeFile_self]
    rfl
  · unfold Pickle.getitem
    rw [lookupFile_writeFile_self]
  · show (FS.lookupFile (gs.writeFile (t.entryPath i) v) (t.entryPath i)).isSome = true
    rw [lookupFile_writeFile_self]
    rfl
  · unfold Tensor.getitem
    rw [lookupFile_writeFile_self]
  · show ((m.setitem i v).cache.find? fun e => e.1 == i).isSome = true
    show (((i, v) :: m.cache.filter fun e => !(e.1 == i)).find?
      fun e => e.1 == i).isSome = true
    rw [find?_key_overwrite_self]
    rfl
  · show (match ((i, v) :: m.cache.filter fun e => !(e.1 == i)).find?
      (fun e => e.1 == i) with
      | some e => Except.ok e.2
      | none => Except.error CacheErr.keyError) = Except.ok v
    rw [find?_key_overwrite_self]

/-- C10 witness: the round trip at the negative index `-5`, whose entry
files are named `-5.pkl` and `-5.pt`. -/
theorem c10_witness :
    Pickle.entryPath exPkl (-5) = ["cache", "-5.pkl"] ∧
    Pickle.mem exPkl exFSneg (-5) = true ∧
    Pickle.getitem exPkl exFSneg (-5) = Except.ok (PyVal.data 9) ∧
    Tensor.entryPath exTen (-5) = ["tcache", "-5.pt"] ∧
    Tensor.mem exTen exGSneg (-5) = true ∧
    Tensor.getitem exTen exGSneg (-5) = Except.ok PyVal.pyNone ∧
    (Memory.setitem (Memory.init : Memory Nat) (-5) (PyVal.data 9)).mem (-5) = true ∧
    (Memory.setitem (Memory.init : Memory Nat) (-5) (PyVal.data 9)).getitem (-5) =
      Except.ok (PyVal.data 9) := by
  have h := c10_negative_indices_uniform Nat exPkl exTen exFS1 exFSneg exGS1 exGSneg
    Memory.init (-5) (PyVal.data 9) rfl rfl
  refine ⟨?_, h.2.1, h.2.2.1, ?_, h.2.2.2.2.1, h.2.2.2.2.2.1, h.2.2.2.2.2.2.1,
    h.2.2.2.2.2.2.2⟩
  · rw [h.1]
    rfl
  · rw [h.2.2.2.1]
    rfl

end Torchdata
